import Mathlib

/-!
Verification of the record-integrity subsystem of the `hoss` hospital
management backend (`backend/app/blockchain/`): canonical hashing
(`hash_builder.py`), AES-CBC file encryption (`encryption.py`), the
simulation ledger backend (`fabric_client.py`), the verification layer
(`integrity_service.py`) and the store/verify orchestration
(`blockchain_service.py`).

Modelling conventions:
* Bytes are `List Nat` (each entry a byte value).
* Python dicts used as record field maps are association lists
  `List (String × PyVal)`; `dict.get(k)` is `dictGet` (absent ↦ `PyVal.vnone`,
  mirroring Python's `None`).  Field values are restricted to the scalar
  subset (`None`, `bool`, `int`, `str`) actually stored in the records this
  codebase hashes; the `json.dumps` branch of `_normalize_value` for nested
  containers and Python `float` formatting are not exercised by any claim.
* SHA-256 (`hashlib.sha256(...).hexdigest()`) is embedded executably and
  validated in-file against FIPS 180-2 test vectors
  (`generateHash_fips_vector_one/_two`, `generateFileHash_fips_vector_empty`).
* The AES-256 block primitive supplied by the external `cryptography`
  library is modelled as an abstract pair of length-preserving mutually
  inverse block maps `E`/`D` (the library's contract for a fixed key);
  PKCS7 padding and CBC chaining, which the source composes around that
  primitive, are embedded concretely.
* Wall-clock timestamps, transaction ids (`datetime.utcnow`, `os.urandom`)
  and the per-call random IV are passed as explicit parameters
  (explicit nondeterminism).
* The simulated ledger dict `FabricClient._simulated_ledger` is a map
  `String → Option LedgerNode`, threaded explicitly through operations.
-/

set_option maxRecDepth 40000

abbrev Bytes := List Nat

/-! ## SHA-256 (`hashlib.sha256`), embedded executably -/

/-- Splits a list into consecutive chunks of `n` elements (fuel-driven so
that it reduces by `rfl`/`decide`); the last chunk may be shorter. -/
def chunksAux (n : Nat) : Nat → Bytes → List Bytes
  | 0, _ => []
  | _, [] => []
  | fuel+1, l => l.take n :: chunksAux n fuel (l.drop n)

def chunks (n : Nat) (l : Bytes) : List Bytes := chunksAux n l.length l

def rotr (n x : Nat) : Nat := (x / 2^n + (x % 2^n) * 2^(32 - n)) % 2^32

def shr (n x : Nat) : Nat := x / 2^n

def bsig0 (x : Nat) : Nat := rotr 2 x ^^^ rotr 13 x ^^^ rotr 22 x
def bsig1 (x : Nat) : Nat := rotr 6 x ^^^ rotr 11 x ^^^ rotr 25 x
def ssig0 (x : Nat) : Nat := rotr 7 x ^^^ rotr 18 x ^^^ shr 3 x
def ssig1 (x : Nat) : Nat := rotr 17 x ^^^ rotr 19 x ^^^ shr 10 x

def chF (e f g : Nat) : Nat := (e &&& f) ^^^ ((e ^^^ 0xFFFFFFFF) &&& g)
def majF (a b c : Nat) : Nat := (a &&& b) ^^^ (a &&& c) ^^^ (b &&& c)

def sha256K : List Nat :=
  [1116352408, 1899447441, 3049323471, 3921009573, 961987163, 1508970993,
   2453635748, 2870763221, 3624381080, 310598401, 607225278, 1426881987,
   1925078388, 2162078206, 2614888103, 3248222580, 3835390401, 4022224774,
   264347078, 604807628, 770255983, 1249150122, 1555081692, 1996064986,
   2554220882, 2821834349, 2952996808, 3210313671, 3336571891, 3584528711,
   113926993, 338241895, 666307205, 773529912, 1294757372, 1396182291,
   1695183700, 1986661051, 2177026350, 2456956037, 2730485921, 2820302411,
   3259730800, 3345764771, 3516065817, 3600352804, 4094571909, 275423344,
   430227734, 506948616, 659060556, 883997877, 958139571, 1322822218,
   1537002063, 1747873779, 1955562222, 2024104815, 2227730452, 2361852424,
   2428436474, 2756734187, 3204031479, 3329325298]

structure Hash8 where
  a : Nat
  b : Nat
  c : Nat
  d : Nat
  e : Nat
  f : Nat
  g : Nat
  h : Nat
  deriving DecidableEq

def sha256Init : Hash8 :=
  ⟨1779033703, 3144134277, 1013904242, 2773480762, 1359893119, 2600822924, 528734635, 1541459225⟩

def extendWords : Bytes → Nat → Bytes
  | w, 0 => w
  | w, k+1 =>
    let n := w.length
    let nw := (ssig1 (w.getD (n-2) 0) + w.getD (n-7) 0 + ssig0 (w.getD (n-15) 0) + w.getD (n-16) 0) % 2^32
    extendWords (w ++ [nw]) k

def sha256Round (s : Hash8) (kw : Nat × Nat) : Hash8 :=
  let t1 := (s.h + bsig1 s.e + chF s.e s.f s.g + kw.1 + kw.2) % 2^32
  let t2 := (bsig0 s.a + majF s.a s.b s.c) % 2^32
  ⟨(t1 + t2) % 2^32, s.a, s.b, s.c, (s.d + t1) % 2^32, s.e, s.f, s.g⟩

def sha256Compress (s0 : Hash8) (block : Bytes) : Hash8 :=
  let w := extendWords block 48
  let s := (sha256K.zip w).foldl sha256Round s0
  ⟨(s0.a + s.a) % 2^32, (s0.b + s.b) % 2^32, (s0.c + s.c) % 2^32, (s0.d + s.d) % 2^32,
   (s0.e + s.e) % 2^32, (s0.f + s.f) % 2^32, (s0.g + s.g) % 2^32, (s0.h + s.h) % 2^32⟩

def sha256Pad (msg : Bytes) : Bytes :=
  let len := msg.length
  let zeros := (56 + 64 - (len + 1) % 64) % 64
  let bitLen := len * 8
  msg ++ [0x80] ++ List.replicate zeros 0 ++
    [bitLen / 2^56 % 256, bitLen / 2^48 % 256, bitLen / 2^40 % 256, bitLen / 2^32 % 256,
     bitLen / 2^24 % 256, bitLen / 2^16 % 256, bitLen / 2^8 % 256, bitLen % 256]

def bytesToWords (l : Bytes) : Bytes :=
  (chunks 4 l).map (fun b => b.getD 0 0 * 2^24 + b.getD 1 0 * 2^16 + b.getD 2 0 * 2^8 + b.getD 3 0)

def wordBytes (w : Nat) : Bytes := [w / 2^24 % 256, w / 2^16 % 256, w / 2^8 % 256, w % 256]

def hash8Bytes (s : Hash8) : Bytes :=
  wordBytes s.a ++ wordBytes s.b ++ wordBytes s.c ++ wordBytes s.d ++
  wordBytes s.e ++ wordBytes s.f ++ wordBytes s.g ++ wordBytes s.h

/-- SHA-256 digest of a byte string, as 32 bytes. -/
def sha256bytes (msg : Bytes) : Bytes :=
  hash8Bytes (((chunks 64 (sha256Pad msg)).map bytesToWords).foldl sha256Compress sha256Init)

def hexDigit (n : Nat) : Char := if n < 10 then Char.ofNat (48 + n) else Char.ofNat (87 + n)

/-- Lowercase hex rendering of a byte string (Python `bytes.hex()` /
`hexdigest()`). -/
def bytesToHex (bs : Bytes) : String := ⟨bs.flatMap (fun b => [hexDigit (b / 16 % 16), hexDigit (b % 16)])⟩

/-- UTF-8 encoding of one character (Python `str.encode('utf-8')`,
per character). -/
def charUtf8 (c : Char) : Bytes :=
  let n := c.toNat
  if n < 0x80 then [n]
  else if n < 0x800 then [0xC0 + n / 0x40, 0x80 + n % 0x40]
  else if n < 0x10000 then [0xE0 + n / 0x1000, 0x80 + n / 0x40 % 0x40, 0x80 + n % 0x40]
  else [0xF0 + n / 0x40000, 0x80 + n / 0x1000 % 0x40, 0x80 + n / 0x40 % 0x40, 0x80 + n % 0x40]

def utf8Bytes (s : String) : Bytes := s.data.flatMap charUtf8

/-- `HashBuilder.generate_hash`: SHA-256 hex digest of the UTF-8 bytes of a
string. -/
def generateHash (s : String) : String := bytesToHex (sha256bytes (utf8Bytes s))

/-- `HashBuilder.generate_file_hash`: SHA-256 hex digest of raw file bytes. -/
def generateFileHash (fileData : Bytes) : String := bytesToHex (sha256bytes fileData)

/-! ## Canonical hashing (`hash_builder.py`) -/

/-- Scalar Python values appearing in record field maps. -/
inductive PyVal
  | vnone
  | vbool (b : Bool)
  | vint (i : Int)
  | vstr (s : String)
  deriving DecidableEq

/-- A Python dict used as a record field map. -/
abbrev Fields := List (String × PyVal)

/-- `fields.get(field)`: `PyVal.vnone` when the key is absent, like
Python's `None`. -/
def dictGet (fields : Fields) (k : String) : PyVal :=
  (List.lookup k fields).getD PyVal.vnone

/-- Python `str.strip()` (over the ASCII whitespace the records contain),
as a structural operation so that it reduces inside the kernel. -/
def pyStrip (s : String) : String :=
  ⟨((s.data.dropWhile Char.isWhitespace).reverse.dropWhile Char.isWhitespace).reverse⟩

/-- `HashBuilder._normalize_value` on the scalar values above:
`None ↦ ""`, booleans to `"true"`/`"false"`, ints via `str`, strings are
`strip`ped. -/
def normalizeValue : PyVal → String
  | .vnone => ""
  | .vbool b => if b then "true" else "false"
  | .vint i => toString i
  | .vstr s => pyStrip s

/-- `sep.join(parts)` for a separator string. -/
def joinSep (sep : String) : List String → String
  | [] => ""
  | [s] => s
  | s :: rest => s ++ sep ++ joinSep sep rest

/-- One `"field=value"` segment of a canonical string. -/
def canonSeg (fields : Fields) (f : String) : String :=
  f ++ "=" ++ normalizeValue (dictGet fields f)

/-- `HashBuilder._build_canonical_string`: `"f1=v1|f2=v2|..."` over the
fixed field order. -/
def buildCanonicalString (fields : Fields) (fieldOrder : List String) : String :=
  joinSep "|" (fieldOrder.map (canonSeg fields))

def patientFieldOrder : List String :=
  ["mrn", "first_name", "last_name", "date_of_birth", "gender",
   "phone", "email", "national_id", "blood_group", "address_line1",
   "city", "state", "postal_code", "country"]

def visitFieldOrder : List String :=
  ["patient_id", "doctor_id", "department_id", "visit_type",
   "admission_date", "chief_complaint", "room_number", "bed_number",
   "ward", "status"]

def prescriptionFieldOrder : List String :=
  ["patient_id", "doctor_id", "visit_id", "notes", "prescription_date"]

def medFieldOrder : List String :=
  ["medicine_name", "dosage", "frequency", "duration", "instructions", "quantity"]

def invoiceFieldOrder : List String :=
  ["patient_id", "visit_id", "invoice_number", "due_date", "notes", "invoice_date"]

def itemFieldOrder : List String :=
  ["category", "description", "quantity", "unit_price"]

def appointmentFieldOrder : List String :=
  ["patient_id", "doctor_id", "department_id", "appointment_date",
   "appointment_time", "visit_type", "reason", "status"]

def reportFieldOrder : List String :=
  ["patient_id", "visit_id", "report_type", "title", "description",
   "ordering_doctor_id", "department_id", "report_date", "result_summary"]

def buildPatientHash (patient : Fields) : String :=
  generateHash (buildCanonicalString patient patientFieldOrder)

def buildVisitHash (visit : Fields) : String :=
  generateHash (buildCanonicalString visit visitFieldOrder)

/-- Code points of a string; Python compares strings lexicographically by
code point, which is the lexicographic `List Nat` order on these. -/
def codePoints (s : String) : List Nat := s.data.map Char.toNat

/-- Sort key of one medication: `x.get('medicine_name', '')` (string-valued
in every record this code hashes; Python would raise `TypeError` when
sorting non-string names, so they are out of scope). -/
def medKey (med : Fields) : List Nat :=
  codePoints
    (match List.lookup "medicine_name" med with
     | some (.vstr s) => s
     | _ => "")

/-- Python's `sorted(medications, key=...)` is a stable sort; stability
determines the output uniquely, embedded here as a stable insertion sort. -/
def sortedMeds (medications : List Fields) : List Fields :=
  List.insertionSort (fun m m' => medKey m ≤ medKey m') medications

/-- `HashBuilder.build_prescription_hash`. -/
def buildPrescriptionHash (prescription : Fields) (medications : List Fields) : String :=
  let baseCanonical := buildCanonicalString prescription prescriptionFieldOrder
  let medParts := (sortedMeds medications).map (fun med => buildCanonicalString med medFieldOrder)
  generateHash (baseCanonical ++ "|medications=[" ++ joinSep ";" medParts ++ "]")

/-- Sort key of one invoice line item: the pair
`(x.get('category',''), x.get('description',''))` compared
lexicographically, as Python compares key tuples. -/
def itemKey (item : Fields) : Lex (List Nat × List Nat) :=
  toLex
    (codePoints
       (match List.lookup "category" item with
        | some (.vstr s) => s
        | _ => ""),
     codePoints
       (match List.lookup "description" item with
        | some (.vstr s) => s
        | _ => ""))

def sortedItems (items : List Fields) : List Fields :=
  List.insertionSort (fun i i' => itemKey i ≤ itemKey i') items

/-- `HashBuilder.build_invoice_hash`. -/
def buildInvoiceHash (invoice : Fields) (items : List Fields) : String :=
  let baseCanonical := buildCanonicalString invoice invoiceFieldOrder
  let itemParts := (sortedItems items).map (fun item => buildCanonicalString item itemFieldOrder)
  generateHash (baseCanonical ++ "|items=[" ++ joinSep ";" itemParts ++ "]")

def buildAppointmentHash (appointment : Fields) : String :=
  generateHash (buildCanonicalString appointment appointmentFieldOrder)

def buildReportFormHash (report : Fields) : String :=
  generateHash (buildCanonicalString report reportFieldOrder)

/-- Python truthiness of an optional string (`if x:`): `None` and `""` are
falsy. -/
def pyTruthyOptStr : Option String → Option String
  | some s => if s = "" then none else some s
  | none => none

/-- `HashBuilder.build_report_hash_payload`: `formHash` always, `fileHash`
and `ipfsHash` only when truthy. -/
def buildReportHashPayload (formHash : String) (fileHash ipfsHash : Option String) :
    List (String × String) :=
  [("formHash", formHash)] ++
  (match pyTruthyOptStr fileHash with | some s => [("fileHash", s)] | none => []) ++
  (match pyTruthyOptStr ipfsHash with | some s => [("ipfsHash", s)] | none => [])

/-- `HashBuilder.build_simple_hash_payload`. -/
def buildSimpleHashPayload (hashValue : String) : List (String × String) :=
  [("hash", hashValue)]

/-! ## Encryption (`encryption.py`): PKCS7 + AES-256-CBC with the block
primitive abstract -/

/-- PKCS7 padding to the 16-byte AES block size
(`padding.PKCS7(128).padder()`). -/
def pkcs7Pad (data : Bytes) : Bytes :=
  let m := 16 - data.length % 16
  data ++ List.replicate m m

/-- PKCS7 unpadding (`padding.PKCS7(128).unpadder()`): `none` models the
library raising on a byte count that is not a positive multiple of the
block size or on inconsistent padding bytes. -/
def pkcs7Unpad (a : Bytes) : Option Bytes :=
  if a.length % 16 = 0 ∧ a.length ≠ 0 then
    match a.getLast? with
    | some m =>
      if 1 ≤ m ∧ m ≤ 16 ∧ a.drop (a.length - m) = List.replicate m m
      then some (a.take (a.length - m)) else none
    | none => none
  else none

/-- CBC encryption over 16-byte blocks, given the keyed AES block map `E`;
`prev` is the IV, then the previous ciphertext block. -/
def cbcEncryptBlocks (E : Bytes → Bytes) (prev : Bytes) : List Bytes → List Bytes
  | [] => []
  | b :: bs =>
    let c := E (List.zipWith Nat.xor b prev)
    c :: cbcEncryptBlocks E c bs

/-- CBC decryption over 16-byte blocks, given the keyed AES inverse block
map `D`. -/
def cbcDecryptBlocks (D : Bytes → Bytes) (prev : Bytes) : List Bytes → List Bytes
  | [] => []
  | c :: cs => List.zipWith Nat.xor (D c) prev :: cbcDecryptBlocks D c cs

/-- `EncryptionService.encrypt_file` with the freshly generated random IV
passed explicitly: pad, then AES-256-CBC encrypt. -/
def encryptFile (E : Bytes → Bytes) (iv : Bytes) (fileData : Bytes) : Bytes :=
  (cbcEncryptBlocks E iv (chunks 16 (pkcs7Pad fileData))).flatten

/-- `EncryptionService.decrypt_file`: AES-256-CBC decrypt, then unpad;
`none` models a raised `DecryptionError`. -/
def decryptFile (D : Bytes → Bytes) (encryptedData : Bytes) (iv : Bytes) : Option Bytes :=
  pkcs7Unpad (cbcDecryptBlocks D iv (chunks 16 encryptedData)).flatten

/-- `EncryptionService.encrypt_for_storage`: ciphertext plus the IV as a
hex string. -/
def encryptForStorage (E : Bytes → Bytes) (iv : Bytes) (fileData : Bytes) : Bytes × String :=
  (encryptFile E iv fileData, bytesToHex iv)

/-! ## Simulation ledger backend (`fabric_client.py`, simulation mode) -/

/-- One committed entry of the simulated ledger (the dict built by
`_simulate_add_record`). -/
structure SimRecord where
  recordID : String
  recordType : String
  patientID : String
  hashPayload : List (String × String)
  metadata : List (String × String)
  timestamp : String
  txID : String
  deriving DecidableEq

/-- One key's slot in `_simulated_ledger`: the current entry plus the
rotated history, oldest first. -/
structure LedgerNode where
  current : SimRecord
  history : List SimRecord
  deriving DecidableEq

/-- The `_simulated_ledger` dict. -/
abbrev Ledger := String → Option LedgerNode

def emptyLedger : Ledger := fun _ => none

def ledgerUpdate (L : Ledger) (k : String) (n : LedgerNode) : Ledger :=
  fun k' => if k' = k then some n else L k'

/-- `FabricClient._simulate_add_record` (timestamp and transaction id
passed explicitly): first append creates the slot; later appends rotate
the previous current entry to the end of history. -/
def simulateAddRecord (L : Ledger) (recordId recordType patientId : String)
    (hashPayload : List (String × String)) (metadata : List (String × String))
    (timestamp txId : String) : (Bool × String × String) × Ledger :=
  let record : SimRecord := ⟨recordId, recordType, patientId, hashPayload, metadata, timestamp, txId⟩
  match L recordId with
  | none => ((true, txId, ""), ledgerUpdate L recordId ⟨record, []⟩)
  | some node => ((true, txId, ""), ledgerUpdate L recordId ⟨record, node.history ++ [node.current]⟩)

/-- `FabricClient._simulate_get_record`: note that an absent key yields
`success = False` with error `'Record not found'`, not `(True, None)`. -/
def simulateGetRecord (L : Ledger) (recordId : String) : Bool × Option SimRecord × String :=
  match L recordId with
  | some node => (true, some node.current, "")
  | none => (false, none, "Record not found")

/-- `FabricClient._simulate_get_history`: chronological `history + [current]`. -/
def simulateGetHistory (L : Ledger) (recordId : String) : Bool × List SimRecord × String :=
  match L recordId with
  | some node => (true, node.history ++ [node.current], "")
  | none => (false, [], "Record not found")

/-! ## Verification layer (`integrity_service.py`) over the simulation
backend -/

inductive VStatus
  | VALID
  | TAMPERED
  | NOT_FOUND
  | ERROR
  deriving DecidableEq

/-- `stored_payload.get(k, default)`. -/
def payloadGetD (p : List (String × String)) (k d : String) : String :=
  (List.lookup k p).getD d

/-- Result dict of `IntegrityService._verify_record`: the `failure`
constructor is the early-return ERROR / NOT_FOUND dict (which carries no
hash fields), `ok` the comparison dict. -/
inductive VerifyOutcome
  | failure (status : VStatus) (error : String) (recordId recordType : String)
  | ok (verified : Bool) (status : VStatus) (recordId recordType currentHash storedHash : String)
  deriving DecidableEq

def VerifyOutcome.status : VerifyOutcome → VStatus
  | .failure s _ _ _ => s
  | .ok _ s _ _ _ _ => s

/-- `IntegrityService._verify_record` with the ledger in simulation mode. -/
def verifyRecord (L : Ledger) (recordId : String) (currentHash : String)
    (recordType : String) : VerifyOutcome :=
  match simulateGetRecord L recordId with
  | (false, _, err) =>
    .failure .ERROR (if err = "" then "Failed to retrieve blockchain record" else err)
      recordId recordType
  | (true, none, _) => .failure .NOT_FOUND "Record not found on blockchain" recordId recordType
  | (true, some rec, _) =>
    let storedHash := payloadGetD rec.hashPayload "hash" ""
    let verified := currentHash == storedHash
    .ok verified (if verified then .VALID else .TAMPERED) recordId recordType currentHash storedHash

def verifyPatient (L : Ledger) (patientId : Nat) (patientData : Fields) : VerifyOutcome :=
  verifyRecord L ("patient_" ++ toString patientId) (buildPatientHash patientData) "PATIENT"

def verifyVisit (L : Ledger) (visitId : Nat) (visitData : Fields) : VerifyOutcome :=
  verifyRecord L ("visit_" ++ toString visitId) (buildVisitHash visitData) "VISIT"

def verifyPrescription (L : Ledger) (prescriptionId : Nat) (prescriptionData : Fields)
    (medications : List Fields) : VerifyOutcome :=
  verifyRecord L ("prescription_" ++ toString prescriptionId)
    (buildPrescriptionHash prescriptionData medications) "PRESCRIPTION"

def verifyInvoice (L : Ledger) (invoiceId : Nat) (invoiceData : Fields)
    (items : List Fields) : VerifyOutcome :=
  verifyRecord L ("invoice_" ++ toString invoiceId) (buildInvoiceHash invoiceData items) "INVOICE"

def verifyAppointment (L : Ledger) (appointmentId : Nat) (appointmentData : Fields) : VerifyOutcome :=
  verifyRecord L ("appointment_" ++ toString appointmentId)
    (buildAppointmentHash appointmentData) "APPOINTMENT"

/-- The comparison part of `IntegrityService.verify_report`'s result dict;
`fileVerified = none` models Python `None` ("file not checked"). -/
structure ReportCheck where
  verified : Bool
  status : VStatus
  formVerified : Bool
  fileVerified : Option Bool
  currentFormHash : String
  storedFormHash : String
  deriving DecidableEq

inductive ReportVerifyResult
  | failure (status : VStatus) (error : String) (recordId : String)
  | ok (recordId : String) (c : ReportCheck)
  deriving DecidableEq

/-- `IntegrityService.verify_report` with the ledger in simulation mode. -/
def verifyReport (L : Ledger) (reportId : Nat) (reportData : Fields)
    (fileData : Option Bytes) : ReportVerifyResult :=
  let recordId := "report_" ++ toString reportId
  match simulateGetRecord L recordId with
  | (false, _, err) =>
    .failure .ERROR (if err = "" then "Failed to retrieve blockchain record" else err) recordId
  | (true, none, _) => .failure .NOT_FOUND "Record not found on blockchain" recordId
  | (true, some rec, _) =>
    let currentFormHash := buildReportFormHash reportData
    let storedPayload := rec.hashPayload
    let storedFormHash := payloadGetD storedPayload "formHash" ""
    let formVerified := currentFormHash == storedFormHash
    let fileVerified : Option Bool :=
      match fileData with
      | none => none
      | some bs => some (generateFileHash bs == payloadGetD storedPayload "fileHash" "")
    let verified := match fileVerified with
      | some fv => formVerified && fv
      | none => formVerified
    .ok recordId
      ⟨verified, if verified then .VALID else .TAMPERED, formVerified, fileVerified,
       currentFormHash, storedFormHash⟩

/-- Summary dict of `IntegrityService.verify_patient_batch`. -/
structure BatchResult where
  totalRecords : Nat
  validRecords : Nat
  tamperedRecords : Nat
  notFoundRecords : Nat
  errorRecords : Nat
  results : List VerifyOutcome
  deriving DecidableEq

/-- One iteration of the `verify_patient_batch` loop: append the result and
bump the counter matching its status (the Python `else` branch counts
errors). -/
def batchStep (L : Ledger) (acc : List VerifyOutcome × Nat × Nat × Nat × Nat)
    (p : Nat × Fields) : List VerifyOutcome × Nat × Nat × Nat × Nat :=
  let result := verifyPatient L p.1 p.2
  let (rs, v, t, nf, e) := acc
  match result.status with
  | .VALID => (rs ++ [result], v+1, t, nf, e)
  | .TAMPERED => (rs ++ [result], v, t+1, nf, e)
  | .NOT_FOUND => (rs ++ [result], v, t, nf+1, e)
  | .ERROR => (rs ++ [result], v, t, nf, e+1)

/-- `IntegrityService.verify_patient_batch`. -/
def verifyPatientBatch (L : Ledger) (patients : List (Nat × Fields)) : BatchResult :=
  let acc := patients.foldl (batchStep L) ([], 0, 0, 0, 0)
  ⟨patients.length, acc.2.1, acc.2.2.1, acc.2.2.2.1, acc.2.2.2.2, acc.1⟩

/-! ## Orchestration (`blockchain_service.py`): `store_report` -/

/-- Result dict of `BlockchainService.store_report`: `uploadFailed` is the
early-return dict after a failed IPFS upload; `done` carries the blockchain
append outcome plus the conditional `fileHash`/`ipfsHash`/`encryptionIv`
keys (absent ↦ `none`). -/
inductive StoreReportResult
  | uploadFailed (recordId : String) (error : String)
  | done (success : Bool) (recordId : String) (formHash : String)
      (transactionId : Option String) (error : Option String)
      (fileHash ipfsHash encryptionIv : Option String)
  deriving DecidableEq

def StoreReportResult.success : StoreReportResult → Bool
  | .uploadFailed _ _ => false
  | .done s _ _ _ _ _ _ _ => s

/-- Tail of `store_report`: build the hash payload, append it to the
(simulation) ledger and assemble the result dict. -/
def storeReportCommit (L : Ledger) (recordId : String) (patientId : Nat) (formHash : String)
    (fileHash ipfsHash encIv : Option String) (metadata : List (String × String))
    (timestamp txId : String) : StoreReportResult × Ledger :=
  let payload := buildReportHashPayload formHash fileHash ipfsHash
  let r := simulateAddRecord L recordId "REPORT" (toString patientId) payload metadata timestamp txId
  let succ := r.1.1
  let tx := r.1.2.1
  let err := r.1.2.2
  (.done succ recordId formHash (if succ then some tx else none) (if succ then none else some err)
     (pyTruthyOptStr fileHash) (pyTruthyOptStr ipfsHash) (pyTruthyOptStr encIv), r.2)

/-- `BlockchainService.store_report` with the ledger in simulation mode.
The external collaborators' contributions are explicit arguments: `E`/`iv`
the AES block map and fresh IV used by `encrypt_for_storage`, and
`uploadResult` the `(success, ipfs_hash, error)` triple the IPFS client
returns for the (unique) upload of this call. -/
def storeReport (L : Ledger) (reportId patientId : Nat) (reportData : Fields)
    (fileData : Option Bytes) (filename : Option String) (uploadToIpfs : Bool)
    (metadata : List (String × String)) (E : Bytes → Bytes) (iv : Bytes)
    (uploadResult : Bool × String × String) (timestamp txId : String) :
    StoreReportResult × Ledger :=
  let recordId := "report_" ++ toString reportId
  let formHash := buildReportFormHash reportData
  let fileOpt : Option (Bytes × String) :=
    match fileData, filename with
    | some bs, some fn => if bs ≠ [] ∧ fn ≠ "" then some (bs, fn) else none
    | _, _ => none
  match fileOpt with
  | none => storeReportCommit L recordId patientId formHash none none none metadata timestamp txId
  | some (bs, _) =>
    let fileHash := generateFileHash bs
    if uploadToIpfs then
      let encIv := (encryptForStorage E iv bs).2
      match uploadResult with
      | (usuccess, ipfsHash, ipfsError) =>
        if usuccess then
          storeReportCommit L recordId patientId formHash (some fileHash) (some ipfsHash)
            (some encIv) metadata timestamp txId
        else
          (.uploadFailed recordId ("IPFS upload failed: " ++ ipfsError), L)
    else
      storeReportCommit L recordId patientId formHash (some fileHash) none none metadata timestamp txId

/-! ## FIPS 180-2 test vectors for the SHA-256 embedding -/

lemma generateHash_fips_vector_one :
    generateHash "abc" =
      "ba7816bf8f01cfea414140de5dae2223b00361a396177a9cb410ff61f20015ad" := by
  decide

lemma generateHash_fips_vector_two :
    generateHash "abcdbcdecdefdefgefghfghighijhijkijkljklmklmnlmnomnopnopq" =
      "248d6a61d20638b8e5c026930c3e6039a33ce45964ff2167f6ecedd419db06c1" := by
  decide

lemma generateFileHash_fips_vector_empty :
    generateFileHash [] =
      "e3b0c44298fc1c149afbf4c8996fb92427ae41e4649b934ca495991b7852b855" := by
  decide

/-! ## Helper definitions for the ledger-growth claim -/

/-- Arguments of one `_simulate_add_record` call to a fixed record key. -/
structure AddInput where
  recordType : String
  patientId : String
  hashPayload : List (String × String)
  metadata : List (String × String)
  timestamp : String
  txId : String
  deriving DecidableEq

/-- The ledger entry `_simulate_add_record` builds for `key` from one call's
arguments. -/
def mkSimRecord (key : String) (i : AddInput) : SimRecord :=
  ⟨key, i.recordType, i.patientId, i.hashPayload, i.metadata, i.timestamp, i.txId⟩

/-- Perform a sequence of `_simulate_add_record` calls on the same key. -/
def appendAll (L : Ledger) (key : String) (ins : List AddInput) : Ledger :=
  ins.foldl
    (fun s i =>
      (simulateAddRecord s key i.recordType i.patientId i.hashPayload i.metadata
        i.timestamp i.txId).2)
    L

lemma ledgerUpdate_self (L : Ledger) (k : String) (n : LedgerNode) :
    ledgerUpdate L k n k = some n := by
  simp [ledgerUpdate]

lemma appendAll_cons (L : Ledger) (key : String) (i : AddInput) (ins : List AddInput) :
    appendAll L key (i :: ins) =
      appendAll
        ((simulateAddRecord L key i.recordType i.patientId i.hashPayload i.metadata
          i.timestamp i.txId).2)
        key ins := by
  simp [appendAll]

lemma simulateAddRecord_state_of_none (L : Ledger) (key : String) (i : AddInput)
    (h : L key = none) :
    (simulateAddRecord L key i.recordType i.patientId i.hashPayload i.metadata
        i.timestamp i.txId).2 =
      ledgerUpdate L key ⟨mkSimRecord key i, []⟩ := by
  simp [simulateAddRecord, h, mkSimRecord]

lemma simulateAddRecord_state_of_some (L : Ledger) (key : String) (i : AddInput)
    (node : LedgerNode) (h : L key = some node) :
    (simulateAddRecord L key i.recordType i.patientId i.hashPayload i.metadata
        i.timestamp i.txId).2 =
      ledgerUpdate L key ⟨mkSimRecord key i, node.history ++ [node.current]⟩ := by
  simp [simulateAddRecord, h, mkSimRecord]

lemma appendAll_lookup_of_some :
    ∀ (ins : List AddInput) (hne : ins ≠ []) (L : Ledger) (key : String) (node : LedgerNode),
      L key = some node →
      appendAll L key ins key =
        some ⟨mkSimRecord key (ins.getLast hne),
              node.history ++ node.current :: ins.dropLast.map (mkSimRecord key)⟩
  | [], hne, _, _, _, _ => absurd rfl hne
  | [i], _, L, key, node, h => by
    rw [appendAll_cons, simulateAddRecord_state_of_some L key i node h]
    simp [appendAll, ledgerUpdate_self]
  | i :: j :: rest, _, L, key, node, h => by
    rw [appendAll_cons, simulateAddRecord_state_of_some L key i node h]
    have hstep :
        ledgerUpdate L key ⟨mkSimRecord key i, node.history ++ [node.current]⟩ key =
          some ⟨mkSimRecord key i, node.history ++ [node.current]⟩ :=
      ledgerUpdate_self _ _ _
    rw [appendAll_lookup_of_some (j :: rest) (by simp) _ key _ hstep]
    simp [List.getLast_cons]

/-- C3: after N ≥ 1 successful appends to a fresh record key on the
simulation ledger backend, the key's slot holds the Nth appended entry as
`current` and exactly the first N−1 appended entries, in append order, as
`history` (so history has length N−1, each append having rotated the
previous current entry to the end of history, with no reordering or
truncation). -/
theorem c3_sim_ledger_history_growth (L : Ledger) (key : String) (ins : List AddInput)
    (h0 : L key = none) (hne : ins ≠ []) :
    appendAll L key ins key =
      some ⟨mkSimRecord key (ins.getLast hne), ins.dropLast.map (mkSimRecord key)⟩ ∧
    (ins.dropLast.map (mkSimRecord key)).length = ins.length - 1 := by
  constructor
  · match ins, hne with
    | [i], _ =>
      rw [appendAll_cons, simulateAddRecord_state_of_none L key i h0]
      simp [appendAll, ledgerUpdate_self]
    | i :: j :: rest, _ =>
      rw [appendAll_cons, simulateAddRecord_state_of_none L key i h0]
      have hstep :
          ledgerUpdate L key ⟨mkSimRecord key i, []⟩ key = some ⟨mkSimRecord key i, []⟩ :=
        ledgerUpdate_self _ _ _
      rw [appendAll_lookup_of_some (j :: rest) (by simp) _ key _ hstep]
      simp [List.getLast_cons]
  · simp [List.length_dropLast]

/-- Witness for C3: three concrete appends to a fresh key leave the third
entry current and the first two, in order, as history. -/
theorem c3_sim_ledger_history_growth_witness :
    emptyLedger "patient_7" = none ∧
    ([⟨"PATIENT", "7", [("hash", "h1")], [], "t1", "tx1"⟩,
      ⟨"PATIENT", "7", [("hash", "h2")], [], "t2", "tx2"⟩,
      ⟨"PATIENT", "7", [("hash", "h3")], [], "t3", "tx3"⟩] : List AddInput) ≠ [] ∧
    appendAll emptyLedger "patient_7"
        [⟨"PATIENT", "7", [("hash", "h1")], [], "t1", "tx1"⟩,
         ⟨"PATIENT", "7", [("hash", "h2")], [], "t2", "tx2"⟩,
         ⟨"PATIENT", "7", [("hash", "h3")], [], "t3", "tx3"⟩] "patient_7" =
      some ⟨⟨"patient_7", "PATIENT", "7", [("hash", "h3")], [], "t3", "tx3"⟩,
            [⟨"patient_7", "PATIENT", "7", [("hash", "h1")], [], "t1", "tx1"⟩,
             ⟨"patient_7", "PATIENT", "7", [("hash", "h2")], [], "t2", "tx2"⟩]⟩ := by
  refine ⟨rfl, by simp, ?_⟩
  exact (c3_sim_ledger_history_growth emptyLedger "patient_7" _ rfl (by simp)).1

/-! ## Batch verification fold invariant -/

lemma batch_fold_spec (L : Ledger) :
    ∀ (ps : List (Nat × Fields)) (rs : List VerifyOutcome) (v t nf e : Nat),
      (ps.foldl (batchStep L) (rs, v, t, nf, e)).1 =
          rs ++ ps.map (fun p => verifyPatient L p.1 p.2) ∧
      (ps.foldl (batchStep L) (rs, v, t, nf, e)).2.1 +
        (ps.foldl (batchStep L) (rs, v, t, nf, e)).2.2.1 +
        (ps.foldl (batchStep L) (rs, v, t, nf, e)).2.2.2.1 +
        (ps.foldl (batchStep L) (rs, v, t, nf, e)).2.2.2.2 = v + t + nf + e + ps.length
  | [], rs, v, t, nf, e => by simp
  | p :: ps, rs, v, t, nf, e => by
    have hstep :
        ∃ rs' v' t' nf' e', batchStep L (rs, v, t, nf, e) p = (rs', v', t', nf', e') ∧
          rs' = rs ++ [verifyPatient L p.1 p.2] ∧ v' + t' + nf' + e' = v + t + nf + e + 1 := by
      simp only [batchStep]
      cases hs : (verifyPatient L p.1 p.2).status <;>
        exact ⟨_, _, _, _, _, rfl, rfl, by omega⟩
    obtain ⟨rs', v', t', nf', e', heq, hrs, hcount⟩ := hstep
    have ih := batch_fold_spec L ps rs' v' t' nf' e'
    rw [List.foldl_cons, heq]
    refine ⟨?_, ?_⟩
    · rw [ih.1, hrs]; simp
    · rw [ih.2]; simp; omega

/-- C8: `verify_patient_batch` returns per-status counts summing to the
input length, `totalRecords` equal to the input length, and one result per
input pair in input order. -/
theorem c8_batch_counts_sum_to_input_size (L : Ledger) (patients : List (Nat × Fields)) :
    (verifyPatientBatch L patients).validRecords + (verifyPatientBatch L patients).tamperedRecords +
        (verifyPatientBatch L patients).notFoundRecords +
        (verifyPatientBatch L patients).errorRecords = patients.length ∧
    (verifyPatientBatch L patients).totalRecords = patients.length ∧
    (verifyPatientBatch L patients).results =
      patients.map (fun p => verifyPatient L p.1 p.2) ∧
    (verifyPatientBatch L patients).results.length = patients.length := by
  have h := batch_fold_spec L patients [] 0 0 0 0
  simp only [verifyPatientBatch]
  refine ⟨?_, trivial, ?_, ?_⟩
  · simpa using h.2
  · simpa using h.1
  · rw [h.1]; simp

/-- C1: on the simulation ledger backend the VALID and TAMPERED halves of
the verification taxonomy hold, but verifying a key on which no append was
ever performed does NOT return `NOT_FOUND`: `_simulate_get_record` returns
`(False, None, 'Record not found')` for an absent key, so
`_verify_record` takes its `not success` branch and classifies the result
`ERROR` — the `NOT_FOUND` branch (reserved for `success ∧ data = None`) is
unreachable via the simulation backend. -/
theorem c1_sim_verify_taxonomy_unknown_key_gives_error :
    verifyPatient emptyLedger 1 [] =
      .failure .ERROR "Record not found" "patient_1" "PATIENT" ∧
    (verifyPatient emptyLedger 1 []).status ≠ VStatus.NOT_FOUND ∧
    (verifyPatient
        (ledgerUpdate emptyLedger "patient_1"
          ⟨⟨"patient_1", "PATIENT", "1", buildSimpleHashPayload (buildPatientHash []), [],
            "2024-01-01T00:00:00Z", "sim-1"⟩, []⟩)
        1 []).status = VStatus.VALID ∧
    (verifyPatient
        (ledgerUpdate emptyLedger "patient_1"
          ⟨⟨"patient_1", "PATIENT", "1", buildSimpleHashPayload "not-the-digest", [],
            "2024-01-01T00:00:00Z", "sim-1"⟩, []⟩)
        1 []).status = VStatus.TAMPERED := by
  refine ⟨rfl, by decide, ?_, ?_⟩ <;> decide

/-! ## Digest length facts (a SHA-256 hex digest is 64 characters, so it is
never the empty string a missing payload key defaults to) -/

lemma bytesToHex_length (bs : Bytes) : (bytesToHex bs).length = 2 * bs.length := by
  show (bs.flatMap (fun b => [hexDigit (b / 16 % 16), hexDigit (b % 16)])).length = 2 * bs.length
  induction bs with
  | nil => rfl
  | cons b rest ih => simp [List.flatMap_cons, ih]; omega

lemma hash8Bytes_length (s : Hash8) : (hash8Bytes s).length = 32 := by
  simp [hash8Bytes, wordBytes]

lemma sha256bytes_length (m : Bytes) : (sha256bytes m).length = 32 :=
  hash8Bytes_length _

lemma generateFileHash_length (bs : Bytes) : (generateFileHash bs).length = 64 := by
  show (bytesToHex (sha256bytes bs)).length = 64
  rw [bytesToHex_length, sha256bytes_length]

lemma generateFileHash_ne_empty (bs : Bytes) : generateFileHash bs ≠ "" := by
  intro h
  have h1 := generateFileHash_length bs
  rw [h] at h1
  simp at h1

/-- C7: `verify_report` on a committed record compares `formHash` always;
with no file bytes supplied the file status is the undetermined value
`none` (distinct from `some false`) and `verified` is the form comparison
alone; with file bytes supplied `verified` is the conjunction of the form
and file comparisons. -/
theorem c7_verify_report_file_comparison_optional (L : Ledger) (reportId : Nat)
    (reportData : Fields) (node : LedgerNode) (bs : Bytes)
    (h : L ("report_" ++ toString reportId) = some node) :
    verifyReport L reportId reportData none =
      .ok ("report_" ++ toString reportId)
        ⟨buildReportFormHash reportData == payloadGetD node.current.hashPayload "formHash" "",
         if buildReportFormHash reportData == payloadGetD node.current.hashPayload "formHash" ""
         then .VALID else .TAMPERED,
         buildReportFormHash reportData == payloadGetD node.current.hashPayload "formHash" "",
         none,
         buildReportFormHash reportData,
         payloadGetD node.current.hashPayload "formHash" ""⟩ ∧
    verifyReport L reportId reportData (some bs) =
      .ok ("report_" ++ toString reportId)
        ⟨(buildReportFormHash reportData == payloadGetD node.current.hashPayload "formHash" "") &&
           (generateFileHash bs == payloadGetD node.current.hashPayload "fileHash" ""),
         if (buildReportFormHash reportData == payloadGetD node.current.hashPayload "formHash" "") &&
              (generateFileHash bs == payloadGetD node.current.hashPayload "fileHash" "")
         then .VALID else .TAMPERED,
         buildReportFormHash reportData == payloadGetD node.current.hashPayload "formHash" "",
         some (generateFileHash bs == payloadGetD node.current.hashPayload "fileHash" ""),
         buildReportFormHash reportData,
         payloadGetD node.current.hashPayload "formHash" ""⟩ ∧
    (none : Option Bool) ≠ some false := by
  simp only [verifyReport]
  rw [show simulateGetRecord L ("report_" ++ toString reportId) = (true, some node.current, "")
      from by simp [simulateGetRecord, h]]
  exact ⟨rfl, rfl, by simp⟩

/-- Sample committed report record used by the C7 witness. -/
def c7SampleNode : LedgerNode :=
  ⟨⟨"report_5", "REPORT", "2",
    [("formHash", buildReportFormHash []), ("fileHash", generateFileHash [1, 2, 3])],
    [], "2024-01-01T00:00:00Z", "sim-5"⟩, []⟩

def c7SampleLedger : Ledger := ledgerUpdate emptyLedger "report_5" c7SampleNode

/-- Witness for C7 at a concrete ledger state. -/
theorem c7_verify_report_file_comparison_optional_witness :
    c7SampleLedger ("report_" ++ toString 5) = some c7SampleNode ∧
    (verifyReport c7SampleLedger 5 [] none =
      .ok ("report_" ++ toString 5)
        ⟨buildReportFormHash [] == payloadGetD c7SampleNode.current.hashPayload "formHash" "",
         if buildReportFormHash [] == payloadGetD c7SampleNode.current.hashPayload "formHash" ""
         then .VALID else .TAMPERED,
         buildReportFormHash [] == payloadGetD c7SampleNode.current.hashPayload "formHash" "",
         none,
         buildReportFormHash [],
         payloadGetD c7SampleNode.current.hashPayload "formHash" ""⟩ ∧
    verifyReport c7SampleLedger 5 [] (some [1, 2, 3]) =
      .ok ("report_" ++ toString 5)
        ⟨(buildReportFormHash [] == payloadGetD c7SampleNode.current.hashPayload "formHash" "") &&
           (generateFileHash [1, 2, 3] == payloadGetD c7SampleNode.current.hashPayload "fileHash" ""),
         if (buildReportFormHash [] == payloadGetD c7SampleNode.current.hashPayload "formHash" "") &&
              (generateFileHash [1, 2, 3] == payloadGetD c7SampleNode.current.hashPayload "fileHash" "")
         then .VALID else .TAMPERED,
         buildReportFormHash [] == payloadGetD c7SampleNode.current.hashPayload "formHash" "",
         some (generateFileHash [1, 2, 3] == payloadGetD c7SampleNode.current.hashPayload "fileHash" ""),
         buildReportFormHash [],
         payloadGetD c7SampleNode.current.hashPayload "formHash" ""⟩ ∧
    (none : Option Bool) ≠ some false) :=
  ⟨rfl, c7_verify_report_file_comparison_optional c7SampleLedger 5 [] c7SampleNode [1, 2, 3] rfl⟩

/-- C10: when the stored payload of a report has no `fileHash` entry and the
caller supplies file bytes, the file comparison is made against the empty
default `''`; a SHA-256 hex digest is never empty, so `fileVerified` is
`some false` and the overall status is `TAMPERED` whatever the form
comparison gives. -/
theorem c10_verify_report_missing_stored_filehash_tampered (L : Ledger) (reportId : Nat)
    (reportData : Fields) (bs : Bytes) (node : LedgerNode)
    (h : L ("report_" ++ toString reportId) = some node)
    (hno : List.lookup "fileHash" node.current.hashPayload = none) :
    verifyReport L reportId reportData (some bs) =
      .ok ("report_" ++ toString reportId)
        ⟨false, .TAMPERED,
         buildReportFormHash reportData == payloadGetD node.current.hashPayload "formHash" "",
         some false,
         buildReportFormHash reportData,
         payloadGetD node.current.hashPayload "formHash" ""⟩ := by
  have hstored : payloadGetD node.current.hashPayload "fileHash" "" = "" := by
    simp [payloadGetD, hno]
  have hcmp : (generateFileHash bs == payloadGetD node.current.hashPayload "fileHash" "") = false := by
    rw [hstored]
    exact beq_eq_false_iff_ne.mpr (generateFileHash_ne_empty bs)
  simp only [verifyReport]
  rw [show simulateGetRecord L ("report_" ++ toString reportId) = (true, some node.current, "")
      from by simp [simulateGetRecord, h]]
  simp [hcmp]

/-- Sample report record stored without a file, used by the C10 witness. -/
def c10SampleNode : LedgerNode :=
  ⟨⟨"report_9", "REPORT", "3", [("formHash", buildReportFormHash [])], [],
    "2024-01-01T00:00:00Z", "sim-9"⟩, []⟩

def c10SampleLedger : Ledger := ledgerUpdate emptyLedger "report_9" c10SampleNode

/-- Witness for C10: the stored payload has no `fileHash` key, so verifying
with file bytes yields `fileVerified = some false` and `TAMPERED` even
though the form hash matches. -/
theorem c10_verify_report_missing_stored_filehash_tampered_witness :
    c10SampleLedger ("report_" ++ toString 9) = some c10SampleNode ∧
    List.lookup "fileHash" c10SampleNode.current.hashPayload = none ∧
    verifyReport c10SampleLedger 9 [] (some [1, 2, 3]) =
      .ok ("report_" ++ toString 9)
        ⟨false, .TAMPERED,
         buildReportFormHash [] == payloadGetD c10SampleNode.current.hashPayload "formHash" "",
         some false,
         buildReportFormHash [],
         payloadGetD c10SampleNode.current.hashPayload "formHash" ""⟩ :=
  ⟨rfl, rfl,
   c10_verify_report_missing_stored_filehash_tampered c10SampleLedger 9 [] [1, 2, 3]
     c10SampleNode rfl rfl⟩

/-- C6: when a report is stored with file bytes and a filename and the IPFS
upload fails, `store_report` aborts before any ledger append: the result is
the failure dict carrying the upload error (`success = false`), and the
ledger state is returned exactly as it was. -/
theorem c6_store_report_upload_failure_aborts_before_append (L : Ledger)
    (reportId patientId : Nat) (reportData : Fields) (bs : Bytes) (fn : String)
    (metadata : List (String × String)) (E : Bytes → Bytes) (iv : Bytes)
    (ipfsId ipfsError : String) (timestamp txId : String)
    (hbs : bs ≠ []) (hfn : fn ≠ "") :
    storeReport L reportId patientId reportData (some bs) (some fn) true metadata E iv
        (false, ipfsId, ipfsError) timestamp txId =
      (.uploadFailed ("report_" ++ toString reportId) ("IPFS upload failed: " ++ ipfsError), L) ∧
    (storeReport L reportId patientId reportData (some bs) (some fn) true metadata E iv
        (false, ipfsId, ipfsError) timestamp txId).1.success = false ∧
    (storeReport L reportId patientId reportData (some bs) (some fn) true metadata E iv
        (false, ipfsId, ipfsError) timestamp txId).2 = L := by
  have hmain : storeReport L reportId patientId reportData (some bs) (some fn) true metadata E iv
      (false, ipfsId, ipfsError) timestamp txId =
      (.uploadFailed ("report_" ++ toString reportId) ("IPFS upload failed: " ++ ipfsError), L) := by
    simp [storeReport, hbs, hfn]
  exact ⟨hmain, by rw [hmain]; rfl, by rw [hmain]⟩

/-- Witness for C6 at concrete inputs. -/
theorem c6_store_report_upload_failure_aborts_before_append_witness :
    ([7, 7] : Bytes) ≠ [] ∧ "scan.pdf" ≠ "" ∧
    storeReport emptyLedger 4 2 [] (some [7, 7]) (some "scan.pdf") true [] (fun b => b)
        (List.replicate 16 0) (false, "", "Pinata upload failed: 500") "t" "tx" =
      (.uploadFailed ("report_" ++ toString 4)
        ("IPFS upload failed: " ++ "Pinata upload failed: 500"), emptyLedger) ∧
    (storeReport emptyLedger 4 2 [] (some [7, 7]) (some "scan.pdf") true [] (fun b => b)
        (List.replicate 16 0) (false, "", "Pinata upload failed: 500") "t" "tx").2 = emptyLedger := by
  refine ⟨by decide, by decide, ?_, ?_⟩
  · exact (c6_store_report_upload_failure_aborts_before_append emptyLedger 4 2 [] [7, 7]
      "scan.pdf" [] (fun b => b) (List.replicate 16 0) "" "Pinata upload failed: 500" "t" "tx"
      (by decide) (by decide)).1
  · exact (c6_store_report_upload_failure_aborts_before_append emptyLedger 4 2 [] [7, 7]
      "scan.pdf" [] (fun b => b) (List.replicate 16 0) "" "Pinata upload failed: 500" "t" "tx"
      (by decide) (by decide)).2.2

/-- C9: `store_report` tests its file arguments with Python truthiness
(`if file_data and filename:`), so empty file bytes or an absent/empty
filename behave exactly as storing with no file at all: no file hash,
encryption or upload happens, the appended payload is `formHash` only, and
the result carries no `fileHash`, `ipfsHash` or `encryptionIv`. -/
theorem c9_store_report_empty_file_treated_as_absent (L : Ledger) (reportId patientId : Nat)
    (reportData : Fields) (fileData : Option Bytes) (filename : Option String)
    (uploadToIpfs : Bool) (metadata : List (String × String)) (E : Bytes → Bytes) (iv : Bytes)
    (uploadResult : Bool × String × String) (timestamp txId : String)
    (h : fileData = none ∨ fileData = some [] ∨ filename = none ∨ filename = some "") :
    storeReport L reportId patientId reportData fileData filename uploadToIpfs metadata E iv
        uploadResult timestamp txId =
      storeReport L reportId patientId reportData none none uploadToIpfs metadata E iv
        uploadResult timestamp txId ∧
    storeReport L reportId patientId reportData none none uploadToIpfs metadata E iv
        uploadResult timestamp txId =
      (.done true ("report_" ++ toString reportId) (buildReportFormHash reportData) (some txId)
         none none none none,
       (simulateAddRecord L ("report_" ++ toString reportId) "REPORT" (toString patientId)
         [("formHash", buildReportFormHash reportData)] metadata timestamp txId).2) := by
  constructor
  · rcases h with h | h | h | h <;> subst h
    · rfl
    · cases filename <;> simp [storeReport]
    · cases fileData <;> simp [storeReport]
    · cases fileData <;> simp [storeReport]
  · simp only [storeReport, storeReportCommit, buildReportHashPayload, pyTruthyOptStr]
    cases hL : L ("report_" ++ toString reportId) <;>
      simp [simulateAddRecord, hL]

/-- Witness for C9: storing with `file_data = b''`. -/
theorem c9_store_report_empty_file_treated_as_absent_witness :
    ((some ([] : Bytes) = none ∨ some ([] : Bytes) = some [] ∨
        (some "f.pdf" : Option String) = none ∨ (some "f.pdf" : Option String) = some "")) ∧
    storeReport emptyLedger 11 6 [] (some []) (some "f.pdf") true [] (fun b => b)
        (List.replicate 16 0) (true, "QmX", "") "t" "tx" =
      storeReport emptyLedger 11 6 [] none none true [] (fun b => b)
        (List.replicate 16 0) (true, "QmX", "") "t" "tx" ∧
    storeReport emptyLedger 11 6 [] none none true [] (fun b => b)
        (List.replicate 16 0) (true, "QmX", "") "t" "tx" =
      (.done true ("report_" ++ toString 11) (buildReportFormHash []) (some "tx") none
         none none none,
       (simulateAddRecord emptyLedger ("report_" ++ toString 11) "REPORT" (toString 6)
         [("formHash", buildReportFormHash [])] [] "t" "tx").2) := by
  refine ⟨Or.inr (Or.inl rfl), ?_⟩
  exact c9_store_report_empty_file_treated_as_absent emptyLedger 11 6 [] (some []) (some "f.pdf")
    true [] (fun b => b) (List.replicate 16 0) (true, "QmX", "") "t" "tx" (Or.inr (Or.inl rfl))

/-! ## String cancellation and canonical-string sensitivity -/

lemma str_append_cancel_left {a b c : String} (h : a ++ b = a ++ c) : b = c := by
  apply String.ext
  have hd : a.data ++ b.data = a.data ++ c.data := by
    rw [← String.data_append, ← String.data_append, h]
  exact List.append_cancel_left hd

lemma str_append_cancel_right {a b c : String} (h : a ++ c = b ++ c) : a = b := by
  apply String.ext
  have hd : a.data ++ c.data = b.data ++ c.data := by
    rw [← String.data_append, ← String.data_append, h]
  exact List.append_cancel_right hd

lemma joinSep_cons_cons (sep s t : String) (rest : List String) :
    joinSep sep (s :: t :: rest) = (s ++ sep) ++ joinSep sep (t :: rest) := rfl

lemma canonSeg_congr {fields fields' : Fields} {g : String}
    (h : normalizeValue (dictGet fields g) = normalizeValue (dictGet fields' g)) :
    canonSeg fields g = canonSeg fields' g := by
  unfold canonSeg
  rw [h]

lemma buildCanonicalString_congr {fields fields' : Fields} :
    ∀ (order : List String),
      (∀ g ∈ order, normalizeValue (dictGet fields g) = normalizeValue (dictGet fields' g)) →
      buildCanonicalString fields order = buildCanonicalString fields' order
  | [], _ => rfl
  | g :: rest, h => by
    unfold buildCanonicalString at *
    simp only [List.map_cons]
    rw [canonSeg_congr (h g (by simp)),
      show (rest.map (canonSeg fields)) = rest.map (canonSeg fields') from by
        have := buildCanonicalString_congr rest (fun g' hg' => h g' (by simp [hg']))
        unfold buildCanonicalString at this
        exact List.map_congr_left (fun g' hg' => canonSeg_congr (h g' (by simp [hg'])))]

lemma canonical_ne_of_single_diff :
    ∀ (order : List String) (fields fields' : Fields) (f : String),
      order.Nodup → f ∈ order →
      (∀ g ∈ order, g ≠ f →
        normalizeValue (dictGet fields g) = normalizeValue (dictGet fields' g)) →
      normalizeValue (dictGet fields f) ≠ normalizeValue (dictGet fields' f) →
      buildCanonicalString fields order ≠ buildCanonicalString fields' order
  | [], _, _, _, _, hmem, _, _ => by simp at hmem
  | [g], fields, fields', f, _, hmem, _, hdiff => by
    have hf : f = g := by simpa using hmem
    subst hf
    intro hcontra
    unfold buildCanonicalString canonSeg at hcontra
    simp only [List.map_cons, List.map_nil, joinSep] at hcontra
    exact hdiff (str_append_cancel_left hcontra)
  | g :: t :: r, fields, fields', f, hnd, hmem, hagree, hdiff => by
    intro hcontra
    unfold buildCanonicalString at hcontra
    simp only [List.map_cons] at hcontra
    rw [joinSep_cons_cons, joinSep_cons_cons] at hcontra
    rcases eq_or_ne g f with hgf | hgf
    · subst hgf
      have hnotin : g ∉ t :: r := (List.nodup_cons.mp hnd).1
      have hJ : (t :: r).map (canonSeg fields) = (t :: r).map (canonSeg fields') :=
        List.map_congr_left (fun g' hg' =>
          canonSeg_congr (hagree g' (by simp [hg']) (fun he => hnotin (he ▸ hg'))))
      have hJ2 : joinSep "|" (canonSeg fields t :: List.map (canonSeg fields) r) =
          joinSep "|" (canonSeg fields' t :: List.map (canonSeg fields') r) := by
        have := congrArg (joinSep "|") hJ
        simpa using this
      rw [hJ2] at hcontra
      have h2 : canonSeg fields g ++ "|" = canonSeg fields' g ++ "|" :=
        str_append_cancel_right hcontra
      have h3 : canonSeg fields g = canonSeg fields' g := str_append_cancel_right h2
      unfold canonSeg at h3
      exact hdiff (str_append_cancel_left h3)
    · have hfrest : f ∈ t :: r := by
        rcases List.mem_cons.mp hmem with h | h
        · exact absurd h.symm hgf
        · exact h
      have hsg : canonSeg fields g = canonSeg fields' g :=
        canonSeg_congr (hagree g (by simp) hgf)
      rw [hsg] at hcontra
      have hJ : joinSep "|" ((t :: r).map (canonSeg fields)) =
          joinSep "|" ((t :: r).map (canonSeg fields')) :=
        str_append_cancel_left hcontra
      exact canonical_ne_of_single_diff (t :: r) fields fields' f
        (List.nodup_cons.mp hnd).2 hfrest
        (fun g' hg' hne => hagree g' (by simp [hg']) hne) hdiff hJ

/-- C5 counterexample: changing the `phone` field from `None` to the
different value `""` leaves the canonical string — and hence the digest —
unchanged, because `_normalize_value` maps both to `""` (likewise a string
and its whitespace-padded variant normalize identically). -/
theorem c5_single_field_change_same_digest_counterexample :
    dictGet [("mrn", PyVal.vstr "M1"), ("phone", PyVal.vnone)] "phone" ≠
      dictGet [("mrn", PyVal.vstr "M1"), ("phone", PyVal.vstr "")] "phone" ∧
    buildCanonicalString [("mrn", PyVal.vstr "M1"), ("phone", PyVal.vnone)] patientFieldOrder =
      buildCanonicalString [("mrn", PyVal.vstr "M1"), ("phone", PyVal.vstr "")] patientFieldOrder ∧
    buildPatientHash [("mrn", PyVal.vstr "M1"), ("phone", PyVal.vnone)] =
      buildPatientHash [("mrn", PyVal.vstr "M1"), ("phone", PyVal.vstr "")] := by
  refine ⟨by decide, by decide, ?_⟩
  show generateHash _ = generateHash _
  exact congrArg generateHash (by decide)

/-- C5 (amended): changing a single field of a record map to a value whose
NORMALIZED form differs (e.g. `0` vs `""`) changes the canonical string —
hence the digest, up to SHA-256 collision — while values that normalize
identically (`None` vs `""`, a string vs its whitespace-padded form) leave
the digest unchanged; and inputs whose fields all normalize equally always
produce an identical canonical string and digest. -/
theorem c5_canonical_sensitivity_amended
    (fields fields' gfields gfields' : Fields) (order order2 : List String) (f : String)
    (hnd : order.Nodup) (hmem : f ∈ order)
    (hagree : ∀ g ∈ order, g ≠ f →
      normalizeValue (dictGet fields g) = normalizeValue (dictGet fields' g))
    (hdiff : normalizeValue (dictGet fields f) ≠ normalizeValue (dictGet fields' f))
    (hall : ∀ g ∈ order2,
      normalizeValue (dictGet gfields g) = normalizeValue (dictGet gfields' g)) :
    buildCanonicalString fields order ≠ buildCanonicalString fields' order ∧
    buildCanonicalString gfields order2 = buildCanonicalString gfields' order2 ∧
    generateHash (buildCanonicalString gfields order2) =
      generateHash (buildCanonicalString gfields' order2) := by
  have hdet := @buildCanonicalString_congr gfields gfields' order2 hall
  exact ⟨canonical_ne_of_single_diff order fields fields' f hnd hmem hagree hdiff,
         hdet, congrArg generateHash hdet⟩

/-- Witness for the amended C5 over the patient field order: `0` vs `""`
on `phone` changes the canonical string; `"  M1  "` vs `"M1"` on `mrn`
(which normalize identically) gives an identical canonical string and
digest. -/
theorem c5_canonical_sensitivity_amended_witness :
    patientFieldOrder.Nodup ∧ "phone" ∈ patientFieldOrder ∧
    normalizeValue (dictGet [("phone", PyVal.vint 0)] "phone") ≠
      normalizeValue (dictGet [("phone", PyVal.vstr "")] "phone") ∧
    buildCanonicalString [("phone", PyVal.vint 0)] patientFieldOrder ≠
      buildCanonicalString [("phone", PyVal.vstr "")] patientFieldOrder ∧
    buildCanonicalString [("mrn", PyVal.vstr "  M1  ")] patientFieldOrder =
      buildCanonicalString [("mrn", PyVal.vstr "M1")] patientFieldOrder ∧
    generateHash (buildCanonicalString [("mrn", PyVal.vstr "  M1  ")] patientFieldOrder) =
      generateHash (buildCanonicalString [("mrn", PyVal.vstr "M1")] patientFieldOrder) := by
  have h := c5_canonical_sensitivity_amended
    [("phone", PyVal.vint 0)] [("phone", PyVal.vstr "")]
    [("mrn", PyVal.vstr "  M1  ")] [("mrn", PyVal.vstr "M1")]
    patientFieldOrder patientFieldOrder "phone"
    (by decide) (by decide) (by decide) (by decide) (by decide)
  exact ⟨by decide, by decide, by decide, h.1, h.2.1, h.2.2⟩

/-! ## Stable sorting by a key: permutation invariance under distinct keys -/

lemma insertionSort_key_eq_of_perm {α β : Type} [LinearOrder β] (key : α → β)
    [inst : DecidableRel (fun a b : α => key a ≤ key b)]
    (l l' : List α) (hperm : l.Perm l')
    (hinj : l.Pairwise fun a b => key a ≠ key b) :
    List.insertionSort (fun a b => key a ≤ key b) l =
      List.insertionSort (fun a b => key a ≤ key b) l' := by
  haveI : IsTotal α (fun a b => key a ≤ key b) := ⟨fun a b => le_total (key a) (key b)⟩
  haveI : IsTrans α (fun a b => key a ≤ key b) := ⟨fun _ _ _ h1 h2 => le_trans h1 h2⟩
  have hs1 : List.Pairwise (fun a b => key a ≤ key b)
      (List.insertionSort (fun a b => key a ≤ key b) l) :=
    List.sorted_insertionSort _ l
  have hs2 : List.Pairwise (fun a b => key a ≤ key b)
      (List.insertionSort (fun a b => key a ≤ key b) l') :=
    List.sorted_insertionSort _ l'
  have hp1 := List.perm_insertionSort (fun a b => key a ≤ key b) l
  have hp2 := List.perm_insertionSort (fun a b => key a ≤ key b) l'
  have hp := hp1.trans (hperm.trans hp2.symm)
  have hsymm : ∀ {x y : α}, key x ≠ key y → key y ≠ key x := fun h => h.symm
  have hinj1 : (List.insertionSort (fun a b => key a ≤ key b) l).Pairwise
      (fun a b => key a ≠ key b) :=
    (List.Perm.pairwise_iff hsymm hp1.symm).mp hinj
  have hinj2 : (List.insertionSort (fun a b => key a ≤ key b) l').Pairwise
      (fun a b => key a ≠ key b) :=
    (List.Perm.pairwise_iff hsymm hp).mp hinj1
  have hlt1 : List.Sorted (fun a b => key a < key b)
      (List.insertionSort (fun a b => key a ≤ key b) l) :=
    (hs1.and hinj1).imp (fun h => lt_of_le_of_ne h.1 h.2)
  have hlt2 : List.Sorted (fun a b => key a < key b)
      (List.insertionSort (fun a b => key a ≤ key b) l') :=
    (hs2.and hinj2).imp (fun h => lt_of_le_of_ne h.1 h.2)
  haveI : IsAntisymm α (fun a b => key a < key b) := ⟨fun _ _ h1 h2 => absurd h2 (lt_asymm h1)⟩
  exact List.eq_of_perm_of_sorted hp hlt1 hlt2

/-- C4 counterexample: Python's `sorted` is stable, so two medications with
the SAME `medicine_name` keep their caller-supplied relative order; swapping
them permutes the list but changes the prescription digest. -/
theorem c4_perm_changes_digest_counterexample :
    ([[("medicine_name", PyVal.vstr "a"), ("dosage", PyVal.vstr "2")],
      [("medicine_name", PyVal.vstr "a"), ("dosage", PyVal.vstr "1")]] : List Fields).Perm
      [[("medicine_name", PyVal.vstr "a"), ("dosage", PyVal.vstr "1")],
       [("medicine_name", PyVal.vstr "a"), ("dosage", PyVal.vstr "2")]] ∧
    buildPrescriptionHash []
        [[("medicine_name", PyVal.vstr "a"), ("dosage", PyVal.vstr "1")],
         [("medicine_name", PyVal.vstr "a"), ("dosage", PyVal.vstr "2")]] ≠
      buildPrescriptionHash []
        [[("medicine_name", PyVal.vstr "a"), ("dosage", PyVal.vstr "2")],
         [("medicine_name", PyVal.vstr "a"), ("dosage", PyVal.vstr "1")]] := by
  constructor
  · exact List.Perm.swap _ _ _
  · decide

/-- C4 (amended): the prescription and invoice digests are invariant under
every permutation of the medications / line-items list PROVIDED no two list
elements share the declared natural sort key (medicine name; category then
description).  Python's `sorted` is stable, so elements with equal keys keep
their caller-supplied relative order and a permutation of such a tie can
change the digest (see the counterexample). -/
theorem c4_list_order_invariance_amended (prescription invoice : Fields)
    (meds meds' items items' : List Fields)
    (hm : meds.Perm meds')
    (hmk : meds.Pairwise fun m m' => medKey m ≠ medKey m')
    (hi : items.Perm items')
    (hik : items.Pairwise fun i i' => itemKey i ≠ itemKey i') :
    buildPrescriptionHash prescription meds = buildPrescriptionHash prescription meds' ∧
    buildInvoiceHash invoice items = buildInvoiceHash invoice items' := by
  constructor
  · unfold buildPrescriptionHash sortedMeds
    rw [insertionSort_key_eq_of_perm medKey meds meds' hm hmk]
  · unfold buildInvoiceHash sortedItems
    rw [insertionSort_key_eq_of_perm itemKey items items' hi hik]

/-- Witness for the amended C4: two-element lists with distinct natural
keys, permuted. -/
theorem c4_list_order_invariance_amended_witness :
    ([[("medicine_name", PyVal.vstr "b")], [("medicine_name", PyVal.vstr "a")]] : List Fields).Perm
      [[("medicine_name", PyVal.vstr "a")], [("medicine_name", PyVal.vstr "b")]] ∧
    ([[("medicine_name", PyVal.vstr "b")], [("medicine_name", PyVal.vstr "a")]] : List Fields).Pairwise
      (fun m m' => medKey m ≠ medKey m') ∧
    ([[("category", PyVal.vstr "x")], [("category", PyVal.vstr "y")]] : List Fields).Perm
      [[("category", PyVal.vstr "y")], [("category", PyVal.vstr "x")]] ∧
    ([[("category", PyVal.vstr "x")], [("category", PyVal.vstr "y")]] : List Fields).Pairwise
      (fun i i' => itemKey i ≠ itemKey i') ∧
    buildPrescriptionHash [] [[("medicine_name", PyVal.vstr "b")], [("medicine_name", PyVal.vstr "a")]] =
      buildPrescriptionHash [] [[("medicine_name", PyVal.vstr "a")], [("medicine_name", PyVal.vstr "b")]] ∧
    buildInvoiceHash [] [[("category", PyVal.vstr "x")], [("category", PyVal.vstr "y")]] =
      buildInvoiceHash [] [[("category", PyVal.vstr "y")], [("category", PyVal.vstr "x")]] := by
  have h := c4_list_order_invariance_amended [] []
    [[("medicine_name", PyVal.vstr "b")], [("medicine_name", PyVal.vstr "a")]]
    [[("medicine_name", PyVal.vstr "a")], [("medicine_name", PyVal.vstr "b")]]
    [[("category", PyVal.vstr "x")], [("category", PyVal.vstr "y")]]
    [[("category", PyVal.vstr "y")], [("category", PyVal.vstr "x")]]
    (List.Perm.swap _ _ _) (by decide) (List.Perm.swap _ _ _) (by decide)
  exact ⟨List.Perm.swap _ _ _, by decide, List.Perm.swap _ _ _, by decide, h.1, h.2⟩

/-! ## CBC/PKCS7 facts for the encryption round-trip claim -/

lemma zipWith_xor_cancel : ∀ (x y : Bytes), x.length = y.length →
    List.zipWith Nat.xor (List.zipWith Nat.xor x y) y = x := by
  intro x
  induction x with
  | nil => intro y _; rfl
  | cons a x ih =>
    intro y h
    cases y with
    | nil => simp at h
    | cons b y =>
      simp only [List.zipWith_cons_cons]
      rw [show Nat.xor (Nat.xor a b) b = a from Nat.xor_cancel_right b a,
        ih y (by simpa using h)]

lemma zipWith_xor_left_cancel : ∀ (x y y' : Bytes), x.length = y.length → x.length = y'.length →
    List.zipWith Nat.xor x y = List.zipWith Nat.xor x y' → y = y' := by
  intro x
  induction x with
  | nil =>
    intro y y' h h' _
    cases y with
    | nil => cases y' with
      | nil => rfl
      | cons _ _ => simp at h'
    | cons _ _ => simp at h
  | cons a x ih =>
    intro y y' h h'
    cases y with
    | nil => simp at h
    | cons b y =>
      cases y' with
      | nil => simp at h'
      | cons b' y' =>
        simp only [List.zipWith_cons_cons, List.cons.injEq]
        rintro ⟨h1, h2⟩
        have h1' : a ^^^ b = a ^^^ b' := h1
        refine ⟨?_, ih y y' (by simpa using h) (by simpa using h') h2⟩
        calc b = a ^^^ (a ^^^ b) := by rw [← Nat.xor_assoc, Nat.xor_self, Nat.zero_xor]
          _ = a ^^^ (a ^^^ b') := by rw [h1']
          _ = b' := by rw [← Nat.xor_assoc, Nat.xor_self, Nat.zero_xor]

lemma chunksAux_flatten : ∀ (n fuel : Nat) (l : Bytes), 0 < n → l.length ≤ fuel →
    (chunksAux n fuel l).flatten = l := by
  intro n fuel
  induction fuel with
  | zero =>
    intro l _ hl
    cases l with
    | nil => rfl
    | cons a l' => simp at hl
  | succ fuel ih =>
    intro l hn hl
    cases l with
    | nil => rfl
    | cons a l' =>
      show (List.take n (a :: l') :: chunksAux n fuel (List.drop n (a :: l'))).flatten = a :: l'
      rw [List.flatten_cons, ih _ hn (by
        simp only [List.length_drop, List.length_cons] at hl ⊢
        omega)]
      exact List.take_append_drop n (a :: l')

lemma chunks_flatten (n : Nat) (hn : 0 < n) (l : Bytes) : (chunks n l).flatten = l :=
  chunksAux_flatten n l.length l hn le_rfl

lemma chunksAux_of_blocks : ∀ (n : Nat) (bs : List Bytes) (fuel : Nat), 0 < n →
    (∀ b ∈ bs, b.length = n) → bs.flatten.length ≤ fuel →
    chunksAux n fuel bs.flatten = bs := by
  intro n bs
  induction bs with
  | nil =>
    intro fuel _ _ _
    cases fuel <;> rfl
  | cons b rest ih =>
    intro fuel hn hb hl
    have hbn : b.length = n := hb b (by simp)
    rw [List.flatten_cons] at hl ⊢
    cases fuel with
    | zero =>
      exfalso
      rw [List.length_append, hbn] at hl
      omega
    | succ fuel =>
      cases b with
      | nil => exfalso; rw [List.length_nil] at hbn; omega
      | cons c cs =>
        show List.take n ((c :: cs) ++ rest.flatten) ::
            chunksAux n fuel (List.drop n ((c :: cs) ++ rest.flatten)) = (c :: cs) :: rest
        rw [List.take_left' hbn, List.drop_left' hbn]
        rw [ih fuel hn (fun x hx => hb x (by simp [hx]))
          (by rw [List.length_append, hbn] at hl; omega)]

lemma chunks_of_blocks (n : Nat) (bs : List Bytes) (hn : 0 < n)
    (hb : ∀ b ∈ bs, b.length = n) : chunks n bs.flatten = bs :=
  chunksAux_of_blocks n bs bs.flatten.length hn hb le_rfl

lemma chunksAux_blocks_len : ∀ (n fuel : Nat) (l : Bytes), 0 < n → n ∣ l.length →
    l.length ≤ fuel → ∀ b ∈ chunksAux n fuel l, b.length = n := by
  intro n fuel
  induction fuel with
  | zero =>
    intro l _ _ _ b hb
    cases l <;> simp [chunksAux] at hb
  | succ fuel ih =>
    intro l hn hdvd hl b hb
    cases l with
    | nil => simp [chunksAux] at hb
    | cons a l' =>
      rw [show chunksAux n (fuel + 1) (a :: l') =
          List.take n (a :: l') :: chunksAux n fuel (List.drop n (a :: l')) from rfl] at hb
      rcases List.mem_cons.mp hb with h | h
      · subst h
        rw [List.length_take]
        have hle : n ≤ (a :: l').length :=
          Nat.le_of_dvd (by simp) hdvd
        omega
      · refine ih (List.drop n (a :: l')) hn ?_ ?_ b h
        · rw [List.length_drop]
          exact Nat.dvd_sub' hdvd dvd_rfl
        · rw [List.length_drop]; omega

lemma chunks_blocks_len (n : Nat) (l : Bytes) (hn : 0 < n) (hdvd : n ∣ l.length) :
    ∀ b ∈ chunks n l, b.length = n :=
  chunksAux_blocks_len n l.length l hn hdvd le_rfl

lemma pkcs7Pad_len (p : Bytes) : (pkcs7Pad p).length = p.length + (16 - p.length % 16) := by
  simp [pkcs7Pad]

lemma pkcs7Pad_dvd (p : Bytes) : 16 ∣ (pkcs7Pad p).length := by
  rw [pkcs7Pad_len]; omega

lemma pkcs7Pad_len_pos (p : Bytes) : 0 < (pkcs7Pad p).length := by
  rw [pkcs7Pad_len]; omega

lemma pkcs7Unpad_pad (p : Bytes) : pkcs7Unpad (pkcs7Pad p) = some p := by
  have hm1 : 1 ≤ 16 - p.length % 16 := by omega
  have hm2 : 16 - p.length % 16 ≤ 16 := by omega
  have hlen : (pkcs7Pad p).length = p.length + (16 - p.length % 16) := pkcs7Pad_len p
  have hsub : (pkcs7Pad p).length - (16 - p.length % 16) = p.length := by omega
  have hlast : (pkcs7Pad p).getLast? = some (16 - p.length % 16) := by
    unfold pkcs7Pad
    rw [List.getLast?_append, List.getLast?_replicate]
    rw [if_neg (by omega : ¬ (16 - p.length % 16) = 0)]
    rfl
  have hdrop : (pkcs7Pad p).drop ((pkcs7Pad p).length - (16 - p.length % 16)) =
      List.replicate (16 - p.length % 16) (16 - p.length % 16) := by
    rw [hsub]
    exact List.drop_left p _
  have htake : (pkcs7Pad p).take ((pkcs7Pad p).length - (16 - p.length % 16)) = p := by
    rw [hsub]
    exact List.take_left p _
  unfold pkcs7Unpad
  rw [if_pos ⟨by rw [hlen]; omega, by rw [hlen]; omega⟩, hlast]
  show (if 1 ≤ 16 - p.length % 16 ∧ 16 - p.length % 16 ≤ 16 ∧
          (pkcs7Pad p).drop ((pkcs7Pad p).length - (16 - p.length % 16)) =
            List.replicate (16 - p.length % 16) (16 - p.length % 16)
        then some ((pkcs7Pad p).take ((pkcs7Pad p).length - (16 - p.length % 16)))
        else none) = some p
  rw [if_pos ⟨hm1, hm2, hdrop⟩, htake]

lemma pkcs7Unpad_structure (a q : Bytes) (h : pkcs7Unpad a = some q) :
    a = q ++ List.replicate (a.length - q.length) (a.length - q.length) := by
  unfold pkcs7Unpad at h
  by_cases h0 : a.length % 16 = 0 ∧ a.length ≠ 0
  case neg => rw [if_neg h0] at h; simp at h
  rw [if_pos h0] at h
  cases hlast : a.getLast? with
  | none => rw [hlast] at h; simp at h
  | some m =>
    simp only [hlast] at h
    by_cases hc : 1 ≤ m ∧ m ≤ 16 ∧ a.drop (a.length - m) = List.replicate m m
    case neg => rw [if_neg hc] at h; simp at h
    rw [if_pos hc] at h
    obtain ⟨hm1, hm16, hdrop⟩ := hc
    have hq : q = a.take (a.length - m) := by
      injection h with h'
      exact h'.symm
    have h16 : 16 ≤ a.length := by omega
    have hqlen : q.length = a.length - m := by
      rw [hq, List.length_take]
      omega
    have hm : a.length - q.length = m := by omega
    rw [hm, hq, ← hdrop, List.take_append_drop]

lemma cbcEncryptBlocks_len (E : Bytes → Bytes)
    (hE : ∀ b : Bytes, b.length = 16 → (E b).length = 16) :
    ∀ (Bs : List Bytes) (prev : Bytes), (∀ b ∈ Bs, b.length = 16) → prev.length = 16 →
      ∀ c ∈ cbcEncryptBlocks E prev Bs, c.length = 16 := by
  intro Bs
  induction Bs with
  | nil => intro prev _ _ c hc; simp [cbcEncryptBlocks] at hc
  | cons b bs ih =>
    intro prev hb hprev c hc
    have hx : (List.zipWith Nat.xor b prev).length = 16 := by
      rw [List.length_zipWith, hb b (by simp), hprev]; omega
    simp only [cbcEncryptBlocks] at hc
    rcases List.mem_cons.mp hc with h | h
    · subst h; exact hE _ hx
    · exact ih (E (List.zipWith Nat.xor b prev)) (fun x hx' => hb x (by simp [hx']))
        (hE _ hx) c h

lemma cbcDecrypt_encrypt (E D : Bytes → Bytes)
    (hE : ∀ b : Bytes, b.length = 16 → (E b).length = 16)
    (hDE : ∀ b : Bytes, b.length = 16 → D (E b) = b) :
    ∀ (Bs : List Bytes) (prev : Bytes), (∀ b ∈ Bs, b.length = 16) → prev.length = 16 →
      cbcDecryptBlocks D prev (cbcEncryptBlocks E prev Bs) = Bs := by
  intro Bs
  induction Bs with
  | nil => intro prev _ _; rfl
  | cons b bs ih =>
    intro prev hb hprev
    have hblen : b.length = 16 := hb b (by simp)
    have hx : (List.zipWith Nat.xor b prev).length = 16 := by
      rw [List.length_zipWith, hblen, hprev]; omega
    simp only [cbcEncryptBlocks, cbcDecryptBlocks]
    rw [hDE _ hx, zipWith_xor_cancel b prev (by rw [hblen, hprev]),
      ih (E (List.zipWith Nat.xor b prev)) (fun x hx' => hb x (by simp [hx'])) (hE _ hx)]

/-- C2: with the AES-256 block primitive of the `cryptography` library
modelled as an arbitrary pair of length-preserving mutually inverse
16-byte block maps for the fixed master key, `decrypt_file` of
`encrypt_file` under the same IV returns exactly the plaintext; and
decrypting the same ciphertext under any DIFFERENT 16-byte IV never
silently returns the plaintext — it either fails unpadding (`none`) or
yields a different byte string. -/
theorem c2_encrypt_decrypt_roundtrip_and_iv_sensitivity
    (E D : Bytes → Bytes) (p iv iv' : Bytes)
    (hE : ∀ b : Bytes, b.length = 16 → (E b).length = 16)
    (hD : ∀ b : Bytes, b.length = 16 → (D b).length = 16)
    (hDE : ∀ b : Bytes, b.length = 16 → D (E b) = b)
    (hiv : iv.length = 16) (hiv' : iv'.length = 16) (hne : iv' ≠ iv) :
    decryptFile D (encryptFile E iv p) iv = some p ∧
    decryptFile D (encryptFile E iv p) iv' ≠ some p := by
  have hBs : ∀ b ∈ chunks 16 (pkcs7Pad p), b.length = 16 :=
    chunks_blocks_len 16 _ (by omega) (pkcs7Pad_dvd p)
  have hCs : ∀ c ∈ cbcEncryptBlocks E iv (chunks 16 (pkcs7Pad p)), c.length = 16 :=
    cbcEncryptBlocks_len E hE _ iv hBs hiv
  have hchunks : chunks 16 (encryptFile E iv p) =
      cbcEncryptBlocks E iv (chunks 16 (pkcs7Pad p)) := by
    unfold encryptFile
    exact chunks_of_blocks 16 _ (by omega) hCs
  have hP : (cbcDecryptBlocks D iv (chunks 16 (encryptFile E iv p))).flatten = pkcs7Pad p := by
    rw [hchunks, cbcDecrypt_encrypt E D hE hDE _ iv hBs hiv]
    exact chunks_flatten 16 (by omega) _
  have hpart1 : decryptFile D (encryptFile E iv p) iv = some p := by
    unfold decryptFile
    rw [hP]
    exact pkcs7Unpad_pad p
  refine ⟨hpart1, ?_⟩
  intro hcontra
  have hBsne : chunks 16 (pkcs7Pad p) ≠ [] := by
    intro h
    have hfl := chunks_flatten 16 (by omega) (pkcs7Pad p)
    rw [h] at hfl
    have hpos := pkcs7Pad_len_pos p
    rw [← hfl] at hpos
    simp at hpos
  obtain ⟨B0, Bs', hBsplit⟩ : ∃ B0 Bs', chunks 16 (pkcs7Pad p) = B0 :: Bs' := by
    cases h : chunks 16 (pkcs7Pad p) with
    | nil => exact absurd h hBsne
    | cons a l => exact ⟨a, l, rfl⟩
  have hCsplit : cbcEncryptBlocks E iv (chunks 16 (pkcs7Pad p)) =
      E (List.zipWith Nat.xor B0 iv) ::
        cbcEncryptBlocks E (E (List.zipWith Nat.xor B0 iv)) Bs' := by
    rw [hBsplit]
    rfl
  have hC0len : (E (List.zipWith Nat.xor B0 iv)).length = 16 := by
    apply hCs
    rw [hCsplit]
    simp
  have hPsplit : (cbcDecryptBlocks D iv (chunks 16 (encryptFile E iv p))).flatten =
      List.zipWith Nat.xor (D (E (List.zipWith Nat.xor B0 iv))) iv ++
        (cbcDecryptBlocks D (E (List.zipWith Nat.xor B0 iv))
          (cbcEncryptBlocks E (E (List.zipWith Nat.xor B0 iv)) Bs')).flatten := by
    rw [hchunks, hCsplit]
    simp [cbcDecryptBlocks]
  have hP'split : (cbcDecryptBlocks D iv' (chunks 16 (encryptFile E iv p))).flatten =
      List.zipWith Nat.xor (D (E (List.zipWith Nat.xor B0 iv))) iv' ++
        (cbcDecryptBlocks D (E (List.zipWith Nat.xor B0 iv))
          (cbcEncryptBlocks E (E (List.zipWith Nat.xor B0 iv)) Bs')).flatten := by
    rw [hchunks, hCsplit]
    simp [cbcDecryptBlocks]
  have hDC0 : (D (E (List.zipWith Nat.xor B0 iv))).length = 16 := hD _ hC0len
  have hhead : (List.zipWith Nat.xor (D (E (List.zipWith Nat.xor B0 iv))) iv).length = 16 := by
    rw [List.length_zipWith, hDC0, hiv]; omega
  have hhead' : (List.zipWith Nat.xor (D (E (List.zipWith Nat.xor B0 iv))) iv').length = 16 := by
    rw [List.length_zipWith, hDC0, hiv']; omega
  have hPT : List.zipWith Nat.xor (D (E (List.zipWith Nat.xor B0 iv))) iv ++
      (cbcDecryptBlocks D (E (List.zipWith Nat.xor B0 iv))
        (cbcEncryptBlocks E (E (List.zipWith Nat.xor B0 iv)) Bs')).flatten = pkcs7Pad p :=
    hPsplit.symm.trans hP
  unfold decryptFile at hcontra
  have hstruct := pkcs7Unpad_structure _ p hcontra
  rw [hP'split] at hstruct
  have hP'len : (List.zipWith Nat.xor (D (E (List.zipWith Nat.xor B0 iv))) iv' ++
      (cbcDecryptBlocks D (E (List.zipWith Nat.xor B0 iv))
        (cbcEncryptBlocks E (E (List.zipWith Nat.xor B0 iv)) Bs')).flatten).length =
      (pkcs7Pad p).length := by
    rw [List.length_append, hhead', ← hPT, List.length_append, hhead]
  rw [hP'len] at hstruct
  have hmp : (pkcs7Pad p).length - p.length = 16 - p.length % 16 := by
    rw [pkcs7Pad_len]
    omega
  have hpadstruct : pkcs7Pad p =
      p ++ List.replicate ((pkcs7Pad p).length - p.length) ((pkcs7Pad p).length - p.length) := by
    rw [hmp]
    rfl
  have hPP' : List.zipWith Nat.xor (D (E (List.zipWith Nat.xor B0 iv))) iv' ++
      (cbcDecryptBlocks D (E (List.zipWith Nat.xor B0 iv))
        (cbcEncryptBlocks E (E (List.zipWith Nat.xor B0 iv)) Bs')).flatten =
      List.zipWith Nat.xor (D (E (List.zipWith Nat.xor B0 iv))) iv ++
        (cbcDecryptBlocks D (E (List.zipWith Nat.xor B0 iv))
          (cbcEncryptBlocks E (E (List.zipWith Nat.xor B0 iv)) Bs')).flatten := by
    rw [hstruct, ← hpadstruct, ← hPT]
  have hheads := List.append_cancel_right hPP'
  exact hne (zipWith_xor_left_cancel _ iv' iv (by rw [hDC0, hiv']) (by rw [hDC0, hiv]) hheads)

/-- Witness for C2 with the identity block map, a 3-byte plaintext and two
concrete IVs differing in their first byte. -/
theorem c2_encrypt_decrypt_roundtrip_and_iv_sensitivity_witness :
    (List.replicate 16 0 : Bytes).length = 16 ∧
    ((1 :: List.replicate 15 0 : Bytes)).length = 16 ∧
    (1 :: List.replicate 15 0 : Bytes) ≠ List.replicate 16 0 ∧
    decryptFile (fun b => b) (encryptFile (fun b => b) (List.replicate 16 0) [10, 20, 30])
        (List.replicate 16 0) = some [10, 20, 30] ∧
    decryptFile (fun b => b) (encryptFile (fun b => b) (List.replicate 16 0) [10, 20, 30])
        (1 :: List.replicate 15 0) ≠ some [10, 20, 30] := by
  have h := c2_encrypt_decrypt_roundtrip_and_iv_sensitivity (fun b => b) (fun b => b)
    [10, 20, 30] (List.replicate 16 0) (1 :: List.replicate 15 0)
    (fun _ hb => hb) (fun _ hb => hb) (fun _ _ => rfl)
    (by decide) (by decide) (by decide)
  exact ⟨by decide, by decide, by decide, h.1, h.2⟩
